import Mathlib

/-
  Verification of the WKT loading orchestration in
  src/src/formats/wkt/WktParser.js (WebWorldWind).

  `WktParser.prototype.load` parses the stored text via
  `new WktTokens(text).objects()`, then for each parsed object iterates its
  materialized shapes, invoking the shape-configuration callback and copying
  the truthy recognized configuration fields onto the shape, collects all
  shapes in order, hands them to `layer.addRenderables`, invokes the
  completion callback with the same list, and returns the parsed objects.

  The embedding below is pure: the observable side effects of `load`
  (callback invocations, the layer call) are reified as an explicit event
  trace.  The tokenizer/grammar/materializer (`WktTokens` and the WKT object
  classes) are not part of the excerpted source; they are modelled from the
  design document, as marked on each such definition.
-/

/-- A JavaScript value, modelled just finely enough to decide the truthiness
tests `load` performs on configuration fields (`if (configuration &&
configuration.attributes)` and friends). -/
inductive JSValue : Type where
  | undef
  | null
  | bool (b : Bool)
  | num (n : Int)
  | str (s : String)
  | obj (id : Nat)
deriving DecidableEq, Repr

/-- JavaScript truthiness: `undefined`, `null`, `false`, `0` and `""` are
falsy; every other value (in particular every object) is truthy. -/
def JSValue.truthy : JSValue → Bool
  | .undef => false
  | .null => false
  | .bool b => b
  | .num n => n != 0
  | .str s => s != ""
  | .obj _ => true

/-- Modelled from the spec: coordinate dimensionality of a WKT geometry,
the enumeration {XY, XYZ, XYM, XYZM} of section 3. -/
inductive Dim : Type where
  | xy
  | xyz
  | xym
  | xyzm
deriving DecidableEq, Repr

/-- Modelled from the spec: how many numeric components a coordinate tuple
of the given dimensionality must contain. -/
def Dim.compCount : Dim → Nat
  | .xy => 2
  | .xyz => 3
  | .xym => 3
  | .xyzm => 4

/-- Modelled from the spec: a coordinate tuple.  Numeric components are kept
as their raw lexemes (the claims under verification never inspect numeric
values, only structure). -/
abbrev Coord := List String

/-- Modelled from the spec: the Geometry Object Model, a tagged union over
the supported geometry kinds (section 3).  A `Point` is empty when its
coordinate is `none`; the aggregate kinds are empty when their child list is
empty; `MultiPoint` children may individually be empty. -/
inductive Geometry : Type where
  | point (d : Dim) (c : Option Coord)
  | lineString (d : Dim) (cs : List Coord)
  | polygon (d : Dim) (rings : List (List Coord))
  | multiPoint (d : Dim) (pts : List (Option Coord))
  | multiLineString (d : Dim) (ls : List (List Coord))
  | multiPolygon (d : Dim) (ps : List (List (List Coord)))
  | geometryCollection (d : Dim) (children : List Geometry)

/-- Modelled from the spec: a renderer-ready shape primitive (marker,
polyline, filled polygon) produced by the shape materializer (section 4.4). -/
inductive ShapePrim : Type where
  | marker (d : Dim) (c : Coord)
  | path (d : Dim) (cs : List Coord)
  | poly (d : Dim) (rings : List (List Coord))
deriving DecidableEq, Repr

mutual

/-- Modelled from the spec: the shape materializer of section 4.4.  A
non-empty point yields one marker, a non-empty line string one polyline, a
non-empty polygon one filled polygon; the aggregates concatenate their
children's shapes in order, recursively for geometry collections; empty
geometries contribute nothing. -/
def materialize : Geometry → List ShapePrim
  | .point _ none => []
  | .point d (some c) => [.marker d c]
  | .lineString _ [] => []
  | .lineString d (c :: cs) => [.path d (c :: cs)]
  | .polygon _ [] => []
  | .polygon d (r :: rs) => [.poly d (r :: rs)]
  | .multiPoint d pts => materializePoints d pts
  | .multiLineString d ls => materializeLines d ls
  | .multiPolygon d ps => materializePolys d ps
  | .geometryCollection _ children => materializeList children

/-- Modelled from the spec: materialization of the children of a
`MultiPoint`; empty children contribute nothing. -/
def materializePoints (d : Dim) : List (Option Coord) → List ShapePrim
  | [] => []
  | none :: rest => materializePoints d rest
  | some c :: rest => ShapePrim.marker d c :: materializePoints d rest

/-- Modelled from the spec: materialization of the children of a
`MultiLineString`; empty children contribute nothing. -/
def materializeLines (d : Dim) : List (List Coord) → List ShapePrim
  | [] => []
  | [] :: rest => materializeLines d rest
  | (c :: cs) :: rest => ShapePrim.path d (c :: cs) :: materializeLines d rest

/-- Modelled from the spec: materialization of the children of a
`MultiPolygon`; empty children contribute nothing. -/
def materializePolys (d : Dim) : List (List (List Coord)) → List ShapePrim
  | [] => []
  | [] :: rest => materializePolys d rest
  | (r :: rs) :: rest => ShapePrim.poly d (r :: rs) :: materializePolys d rest

/-- Modelled from the spec: in-order concatenation of the materializations
of a list of geometries (used for `GeometryCollection`). -/
def materializeList : List Geometry → List ShapePrim
  | [] => []
  | g :: gs => materialize g ++ materializeList gs

end

/-- A renderable shape as `load` sees it: the materialized primitive plus
the four dynamic fields `load` may overwrite (lines 78, 81, 84, 87 of
WktParser.js) and a bag of any other dynamic properties, kept to state frame
conditions.  Fresh shapes carry `undefined` in every dynamic field. -/
structure Shape : Type where
  payload : ShapePrim
  attributes : JSValue := JSValue.undef
  highlightAttributes : JSValue := JSValue.undef
  pickDelegate : JSValue := JSValue.undef
  userProperties : JSValue := JSValue.undef
  others : List (String × JSValue) := []
deriving DecidableEq, Repr

/-- Modelled from the spec: `object.shapes()` (line 75 of WktParser.js), the
per-root shape materialization operation exposed by every GOM root; the
materializer is pure and the shapes it returns carry default fields. -/
def Geometry.shapes (g : Geometry) : List Shape :=
  (materialize g).map fun p => { payload := p }

/-- The configuration record a shape-configuration callback may return:
the four recognized fields, each independently optional (absent fields read
as `undefined` in JavaScript). -/
structure Configuration : Type where
  attributes : Option JSValue := none
  highlightAttributes : Option JSValue := none
  pickDelegate : Option JSValue := none
  userProperties : Option JSValue := none
deriving DecidableEq, Repr

/-- Reading an optional record field in JavaScript: an absent field reads as
`undefined`. -/
def propGet (f : Option JSValue) : JSValue :=
  f.getD JSValue.undef

/-- One guarded assignment of `load` (e.g. lines 77-79 of WktParser.js):
`if (configuration.attributes) shape.attributes = configuration.attributes`.
The field is overwritten exactly when the configuration field reads truthy. -/
def assignIfTruthy (f : Option JSValue) (cur : JSValue) : JSValue :=
  if (propGet f).truthy then propGet f else cur

/-- Lines 76-88 of WktParser.js applied to one shape: given the value the
shape-configuration callback returned (`none` models a falsy return, i.e.
`undefined` or `null`), overwrite each of the four recognized fields whose
configuration value is truthy; everything else is untouched. -/
def processShape : Option Configuration → Shape → Shape
  | none, s => s
  | some c, s =>
    { s with
      attributes := assignIfTruthy c.attributes s.attributes,
      highlightAttributes := assignIfTruthy c.highlightAttributes s.highlightAttributes,
      pickDelegate := assignIfTruthy c.pickDelegate s.pickDelegate,
      userProperties := assignIfTruthy c.userProperties s.userProperties }

/-- A shape-configuration callback as `load` uses it: it receives the parsed
object (the GOM root, line 76 of WktParser.js) and returns a configuration
record or a falsy value. -/
abbrev ShapeConfigCB := Geometry → Option Configuration

/-- The no-op callback `function(){}` that `load` substitutes for a missing
callback (lines 70-71); it returns `undefined`, i.e. `none`. -/
def noopConfigCB : ShapeConfigCB := fun _ => none

/-- An observable action of `load`: a `shapes()` query on a parsed object,
an invocation of the shape-configuration callback (recording its argument),
the single `layer.addRenderables` call, or the invocation of the completion
callback (recording its argument). -/
inductive Event : Type where
  | shapesCall (o : Geometry)
  | configCall (o : Geometry)
  | layerAdd (ss : List Shape)
  | completionCall (ss : List Shape)

/-- Is this event an invocation of the shape-configuration callback? -/
def Event.isConfig : Event → Bool
  | .configCall _ => true
  | _ => false

/-- Is this event a `layer.addRenderables` call? -/
def Event.isLayer : Event → Bool
  | .layerAdd _ => true
  | _ => false

/-- Is this event an invocation of the completion callback? -/
def Event.isCompletion : Event → Bool
  | .completionCall _ => true
  | _ => false

/-- Is this event a `shapes()` query on a parsed object? -/
def Event.isShapesQuery : Event → Bool
  | .shapesCall _ => true
  | _ => false

/-- The collection loop of `load` (lines 73-91 of WktParser.js): for each
parsed object, query its shapes once, and for each shape invoke the
configuration callback with the object, apply the returned configuration to
the shape, and push the shape.  Returns the collected shape list and the
event trace of the loop. -/
def collectShapes (scc : ShapeConfigCB) : List Geometry → List Shape × List Event
  | [] => ([], [])
  | o :: rest =>
    let here := o.shapes.map fun s => processShape (scc o) s
    let evts := Event.shapesCall o :: o.shapes.map fun _ => Event.configCall o
    let tail := collectShapes scc rest
    (here ++ tail.1, evts ++ tail.2)

/-- Lines 70-97 of WktParser.js after a successful parse: run the collection
loop, call `layer.addRenderables(shapes)`, invoke the completion callback
with the same list, and return the parsed objects.  The result pairs the
return value with the event trace. -/
def runLoad (scc : ShapeConfigCB) (objects : List Geometry) :
    List Geometry × List Event :=
  let col := collectShapes scc objects
  (objects, col.2 ++ [Event.layerAdd col.1, Event.completionCall col.1])

/-- The error taxonomy of a failed parse (spec section 7): an unrecognized
character with its offset, or a grammar mismatch with expected/found
descriptions and an offset.  Both abort the whole parse. -/
inductive WktError : Type where
  | lexErr (c : Char) (off : Nat)
  | synErr (expected : String) (found : String) (off : Nat)
deriving DecidableEq, Repr

/-- Modelled from the spec: a classified lexical token of the tokenizer
(section 4.1): identifier, number, or one of the three punctuation marks,
each carrying its source offset. -/
inductive Token : Type where
  | ident (s : String) (off : Nat)
  | number (s : String) (off : Nat)
  | lparen (off : Nat)
  | rparen (off : Nat)
  | comma (off : Nat)
deriving DecidableEq, Repr

/-- Modelled from the spec: whitespace skipped between tokens. -/
def isWs (c : Char) : Bool :=
  c = ' ' || c = '\t' || c = '\n' || c = '\r'

/-- Modelled from the spec: the tail of a scientific-notation exponent after
the `e`/`E` marker: an optional sign then a digit run. -/
def expTail (e : Char) (rest : List Char) : List Char × List Char :=
  match rest with
  | c :: rest2 =>
    if c = '-' || c = '+' then
      let p := rest2.span Char.isDigit
      (e :: c :: p.1, p.2)
    else
      let p := rest.span Char.isDigit
      (e :: p.1, p.2)
  | [] => ([e], [])

/-- Modelled from the spec: the maximal run matching the signed
decimal/scientific numeric pattern of section 4.1 (optional sign, digits,
optional point and fraction, optional exponent), returned with the rest of
the input. -/
def lexNumber (cs : List Char) : List Char × List Char :=
  let p0 :=
    match cs with
    | c :: rest => if c = '-' || c = '+' then ([c], rest) else (([] : List Char), cs)
    | [] => ([], [])
  let p1 := p0.2.span Char.isDigit
  let p2 :=
    match p1.2 with
    | '.' :: rest =>
      let pf := rest.span Char.isDigit
      ('.' :: pf.1, pf.2)
    | _ => ([], p1.2)
  let p3 :=
    match p2.2 with
    | 'e' :: rest => expTail 'e' rest
    | 'E' :: rest => expTail 'E' rest
    | _ => ([], p2.2)
  (p0.1 ++ p1.1 ++ p2.1 ++ p3.1, p3.2)

/-- Modelled from the spec: the tokenizer loop of section 4.1.  Skips
whitespace, lexes maximal letter runs as identifiers and maximal numeric
runs as numbers, emits the three punctuation tokens, and fails with a
`lexErr` on any other character.  Fuel bounds the recursion; every step
consumes at least one character, so input length plus one suffices. -/
def tokenizeAux : Nat → List Char → Nat → Except WktError (List Token)
  | 0, _, _ => Except.error (WktError.lexErr ' ' 0)
  | _ + 1, [], _ => Except.ok []
  | fuel + 1, c :: rest, off =>
    if isWs c then
      tokenizeAux fuel rest (off + 1)
    else if c = '(' then do
      let ts ← tokenizeAux fuel rest (off + 1)
      pure (Token.lparen off :: ts)
    else if c = ')' then do
      let ts ← tokenizeAux fuel rest (off + 1)
      pure (Token.rparen off :: ts)
    else if c = ',' then do
      let ts ← tokenizeAux fuel rest (off + 1)
      pure (Token.comma off :: ts)
    else if c.isAlpha then
      let p := (c :: rest).span Char.isAlpha
      do
        let ts ← tokenizeAux fuel p.2 (off + p.1.length)
        pure (Token.ident (String.mk p.1) off :: ts)
    else if c.isDigit || c = '-' || c = '+' then
      let p := lexNumber (c :: rest)
      do
        let ts ← tokenizeAux fuel p.2 (off + p.1.length)
        pure (Token.number (String.mk p.1) off :: ts)
    else
      Except.error (WktError.lexErr c off)

/-- Modelled from the spec: the tokenizer entry point, a pure function of
the input text. -/
def tokenize (text : String) : Except WktError (List Token) :=
  tokenizeAux (text.length + 1) text.toList 0

/-- Modelled from the spec: the seven supported geometry-type keywords of
the grammar (section 4.2, step 1). -/
inductive GeomKind : Type where
  | pt
  | ls
  | pg
  | mpt
  | mls
  | mpg
  | gc
deriving DecidableEq, Repr

/-- Modelled from the spec: ASCII upper-casing of one character, for the
case-insensitive keyword comparison of section 4.1. -/
def upChar (c : Char) : Char :=
  if c.isLower then Char.ofNat (c.toNat - 32) else c

/-- Modelled from the spec: ASCII upper-casing of a keyword candidate. -/
def upStr (s : String) : String :=
  String.mk (s.data.map upChar)

/-- Modelled from the spec: case-normalized keyword recognition. -/
def baseKeyword : String → Option GeomKind
  | "POINT" => some .pt
  | "LINESTRING" => some .ls
  | "POLYGON" => some .pg
  | "MULTIPOINT" => some .mpt
  | "MULTILINESTRING" => some .mls
  | "MULTIPOLYGON" => some .mpg
  | "GEOMETRYCOLLECTION" => some .gc
  | _ => none

/-- Modelled from the spec: a dimensionality suffix token (section 4.2,
step 2); absence implies XY. -/
def dimSuffix : String → Option Dim
  | "Z" => some .xyz
  | "M" => some .xym
  | "ZM" => some .xyzm
  | _ => none

/-- Modelled from the spec: splitting a combined identifier such as
`POINTZ` into keyword plus trailing dimensionality suffix (section 4.2,
tie-break rule): the longest full keyword is preferred, otherwise a trailing
`ZM`, `Z` or `M` is stripped. -/
def splitKeyword (s : String) : Option (GeomKind × Option Dim) :=
  match baseKeyword s with
  | some k => some (k, none)
  | none =>
    if s.endsWith "ZM" then
      (baseKeyword (s.dropRight 2)).map fun k => (k, some Dim.xyzm)
    else if s.endsWith "Z" then
      (baseKeyword (s.dropRight 1)).map fun k => (k, some Dim.xyz)
    else if s.endsWith "M" then
      (baseKeyword (s.dropRight 1)).map fun k => (k, some Dim.xym)
    else
      none

/-- Source offset of a token, for diagnostics. -/
def tokOff : Token → Nat
  | .ident _ o => o
  | .number _ o => o
  | .lparen o => o
  | .rparen o => o
  | .comma o => o

/-- Display text of a token, for diagnostics. -/
def tokDescr : Token → String
  | .ident s _ => s
  | .number s _ => s
  | .lparen _ => "("
  | .rparen _ => ")"
  | .comma _ => ","

/-- Modelled from the spec: a grammar mismatch error naming what was
expected and what was found (end of input when no token remains). -/
def synAt (expected : String) : List Token → WktError
  | [] => WktError.synErr expected "end of input" 0
  | t :: _ => WktError.synErr expected (tokDescr t) (tokOff t)

/-- Modelled from the spec: consume one number token. -/
def parseNumber : List Token → Except WktError (String × List Token)
  | Token.number s _ :: rest => Except.ok (s, rest)
  | ts => Except.error (synAt "number" ts)

/-- Modelled from the spec: consume exactly `n` number tokens (the
component count of the declared dimensionality, section 4.2 step 4). -/
def parseNums : Nat → List Token → Except WktError (List String × List Token)
  | 0, ts => Except.ok ([], ts)
  | n + 1, ts => do
    let p ← parseNumber ts
    let q ← parseNums n p.2
    pure (p.1 :: q.1, q.2)

/-- Modelled from the spec: consume a `(`. -/
def expectL : List Token → Except WktError (List Token)
  | Token.lparen _ :: rest => Except.ok rest
  | ts => Except.error (synAt "(" ts)

/-- Modelled from the spec: consume a `)`. -/
def expectR : List Token → Except WktError (List Token)
  | Token.rparen _ :: rest => Except.ok rest
  | ts => Except.error (synAt ")" ts)

/-- Modelled from the spec: a non-empty comma-separated list of `p`
productions.  Fuel bounds the recursion; each element consumes at least one
token, so the token count plus one suffices. -/
def sepByAux {α : Type} (p : List Token → Except WktError (α × List Token)) :
    Nat → List Token → Except WktError (List α × List Token)
  | 0, ts => Except.error (synAt "list element" ts)
  | fuel + 1, ts => do
    let a ← p ts
    match a.2 with
    | Token.comma _ :: ts2 => do
      let rest ← sepByAux p fuel ts2
      pure (a.1 :: rest.1, rest.2)
    | _ => pure ([a.1], a.2)

/-- Modelled from the spec: comma-separated list with default fuel. -/
def sepBy {α : Type} (p : List Token → Except WktError (α × List Token))
    (ts : List Token) : Except WktError (List α × List Token) :=
  sepByAux p (ts.length + 1) ts

/-- Modelled from the spec: is this token the (case-insensitive) `EMPTY`
keyword? -/
def isEmptyTok : Token → Bool
  | .ident s _ => upStr s = "EMPTY"
  | _ => false

/-- Modelled from the spec: the empty geometry of a given kind and
dimensionality (the grammar's explicit `EMPTY` convention). -/
def emptyGeom : GeomKind → Dim → Geometry
  | .pt, d => .point d none
  | .ls, d => .lineString d []
  | .pg, d => .polygon d []
  | .mpt, d => .multiPoint d []
  | .mls, d => .multiLineString d []
  | .mpg, d => .multiPolygon d []
  | .gc, d => .geometryCollection d []

/-- Modelled from the spec: one coordinate tuple, reading exactly the
component count of the declared dimensionality. -/
def parseCoordTuple (d : Dim) (ts : List Token) :
    Except WktError (Coord × List Token) :=
  parseNums d.compCount ts

/-- Modelled from the spec: a polygon ring, `(` comma-separated coordinates
`)`, with at least 4 coordinates and first equal to last (section 4.2,
step 4). -/
def parseRing (d : Dim) (ts : List Token) :
    Except WktError (List Coord × List Token) := do
  let ts1 ← expectL ts
  let p ← sepBy (parseCoordTuple d) ts1
  let ts2 ← expectR p.2
  if p.1.length < 4 then
    Except.error (synAt "ring of at least 4 coordinates" ts)
  else if p.1.head? ≠ p.1.getLast? then
    Except.error (synAt "closed ring" ts)
  else
    pure (p.1, ts2)

/-- Modelled from the spec: one `MultiPoint` member, admitting both the bare
coordinate form and the parenthesized form (section 4.2, step 4), and an
individually empty member. -/
def parseMptItem (d : Dim) (ts : List Token) :
    Except WktError (Option Coord × List Token) :=
  match ts with
  | Token.lparen _ :: _ => do
    let ts1 ← expectL ts
    let p ← parseCoordTuple d ts1
    let ts2 ← expectR p.2
    pure (some p.1, ts2)
  | t :: rest =>
    if isEmptyTok t then Except.ok (none, rest)
    else do
      let p ← parseCoordTuple d ts
      pure (some p.1, p.2)
  | [] => Except.error (synAt "point member" [])

/-- Modelled from the spec: a `LineString` body without its keyword:
`EMPTY`, or `(` at least two comma-separated coordinates `)` (a list of
exactly one is a grammar error). -/
def parseLineBody (d : Dim) (ts : List Token) :
    Except WktError (List Coord × List Token) :=
  match ts with
  | t :: rest =>
    if isEmptyTok t then Except.ok ([], rest)
    else do
      let ts1 ← expectL ts
      let p ← sepBy (parseCoordTuple d) ts1
      let ts2 ← expectR p.2
      if p.1.length < 2 then
        Except.error (synAt "at least 2 coordinates" ts)
      else
        pure (p.1, ts2)
  | [] => Except.error (synAt "( or EMPTY" [])

/-- Modelled from the spec: a `Polygon` body without its keyword: `EMPTY`,
or `(` comma-separated rings `)`. -/
def parsePolyBody (d : Dim) (ts : List Token) :
    Except WktError (List (List Coord) × List Token) :=
  match ts with
  | t :: rest =>
    if isEmptyTok t then Except.ok ([], rest)
    else do
      let ts1 ← expectL ts
      let p ← sepBy (parseRing d) ts1
      let ts2 ← expectR p.2
      pure (p.1, ts2)
  | [] => Except.error (synAt "( or EMPTY" [])

mutual

/-- Modelled from the spec: one full geometry production (section 4.2):
keyword, optional dimensionality suffix (combined or as a separate token),
then `EMPTY` or the kind-specific body; `GEOMETRYCOLLECTION` recurses into
full geometry productions.  Fuel bounds the collection recursion; each
nested geometry consumes at least one token, so the token count plus one
suffices. -/
def parseGeometryAux (fuel0 : Nat) (ts0 : List Token) :
    Except WktError (Geometry × List Token) :=
  match fuel0, ts0 with
  | 0, ts => Except.error (synAt "geometry" ts)
  | fuel + 1, Token.ident s off :: rest =>
    (match splitKeyword (upStr s) with
    | none => Except.error (WktError.synErr "geometry keyword" s off)
    | some (k, dsuf) =>
      let dr : Dim × List Token :=
        match dsuf with
        | some d0 => (d0, rest)
        | none =>
          match rest with
          | Token.ident s2 _ :: rest3 =>
            (match dimSuffix (upStr s2) with
            | some d1 => (d1, rest3)
            | none => (Dim.xy, rest))
          | _ => (Dim.xy, rest)
      let d := dr.1
      match dr.2 with
      | t :: rest2 =>
        if isEmptyTok t then Except.ok (emptyGeom k d, rest2)
        else
          (match k with
          | GeomKind.pt => do
            let ts1 ← expectL dr.2
            let p ← parseCoordTuple d ts1
            let ts2 ← expectR p.2
            pure (Geometry.point d (some p.1), ts2)
          | GeomKind.ls => do
            let p ← parseLineBody d dr.2
            pure (Geometry.lineString d p.1, p.2)
          | GeomKind.pg => do
            let p ← parsePolyBody d dr.2
            pure (Geometry.polygon d p.1, p.2)
          | GeomKind.mpt => do
            let ts1 ← expectL dr.2
            let p ← sepBy (parseMptItem d) ts1
            let ts2 ← expectR p.2
            pure (Geometry.multiPoint d p.1, ts2)
          | GeomKind.mls => do
            let ts1 ← expectL dr.2
            let p ← sepBy (parseLineBody d) ts1
            let ts2 ← expectR p.2
            pure (Geometry.multiLineString d p.1, ts2)
          | GeomKind.mpg => do
            let ts1 ← expectL dr.2
            let p ← sepBy (parsePolyBody d) ts1
            let ts2 ← expectR p.2
            pure (Geometry.multiPolygon d p.1, ts2)
          | GeomKind.gc => do
            let ts1 ← expectL dr.2
            let p ← parseGeomListAux fuel ts1
            let ts2 ← expectR p.2
            pure (Geometry.geometryCollection d p.1, ts2))
      | [] => Except.error (synAt "( or EMPTY" []))
  | _ + 1, ts => Except.error (synAt "geometry keyword" ts)
termination_by structural fuel0

/-- Modelled from the spec: the comma-separated list of full geometry
productions inside a `GEOMETRYCOLLECTION` body (section 4.2, step 4). -/
def parseGeomListAux (fuel0 : Nat) (ts0 : List Token) :
    Except WktError (List Geometry × List Token) :=
  match fuel0, ts0 with
  | 0, ts => Except.error (synAt "geometry" ts)
  | fuel + 1, ts => do
    let a ← parseGeometryAux fuel ts
    match a.2 with
    | Token.comma _ :: ts2 => do
      let rest ← parseGeomListAux fuel ts2
      pure (a.1 :: rest.1, rest.2)
    | _ => pure ([a.1], a.2)
termination_by structural fuel0

end

/-- Modelled from the spec: the top-level driver (section 4.2, step 5):
repeatedly parse full geometry productions until the input is exhausted;
end of input is the only valid terminal condition. -/
def parseTopAux : Nat → List Token → Except WktError (List Geometry)
  | _, [] => Except.ok []
  | 0, ts => Except.error (synAt "geometry" ts)
  | fuel + 1, ts => do
    let p ← parseGeometryAux (fuel + 1) ts
    let gs ← parseTopAux fuel p.2
    pure (p.1 :: gs)

/-- Modelled from the spec: `new WktTokens(text).objects()` (line 68 of
WktParser.js), the whole parsing pipeline: tokenize, then parse the token
sequence as a list of top-level geometries; any lexical or grammar error
aborts the whole parse with no partial result. -/
def parse (text : String) : Except WktError (List Geometry) := do
  let toks ← tokenize text
  parseTopAux (toks.length + 1) toks

/-- `WktParser.prototype.load` (lines 67-98 of WktParser.js), callbacks
passed as options (`none` models passing `null` or `undefined`; lines 70-71
replace a missing callback by `function(){}`).  The parse of line 68 runs
first; a parse error propagates to the caller before any callback or layer
interaction, hence the empty event trace in the error case.  On success the
parsed objects are returned (line 97) alongside the event trace of the
collection loop, the `layer.addRenderables` call and the completion
callback invocation.  The completion callback produces no value `load`
consumes, so only its invocation event is modelled, not its body. -/
def loadText (pccOpt : Option Unit) (sccOpt : Option ShapeConfigCB) (text : String) :
    Except WktError (List Geometry) × List Event :=
  match parse text with
  | Except.error e => (Except.error e, [])
  | Except.ok objects =>
    let scc := sccOpt.getD noopConfigCB
    let r := runLoad scc objects
    (Except.ok r.1, r.2)

/-- The `WktParser` instance state: the constructor (lines 50-54 of
WktParser.js) stores the text and initializes `objects` to `null`; `load`
never writes instance state. -/
structure WktParser : Type where
  objects : Option (List Geometry)
  textRepresentation : String

/-- The `WktParser` constructor: `new WktParser(textRepresentation)`. -/
def WktParser.make (t : String) : WktParser :=
  { objects := none, textRepresentation := t }

/-- `load` as a method: reads `this.textRepresentation`, performs no write
to the instance, and returns it unchanged alongside the call's result and
event trace. -/
def WktParser.load (p : WktParser) (pccOpt : Option Unit) (sccOpt : Option ShapeConfigCB) :
    (Except WktError (List Geometry) × List Event) × WktParser :=
  (loadText pccOpt sccOpt p.textRepresentation, p)

lemma collectShapes_fst (scc : ShapeConfigCB) (objects : List Geometry) :
    (collectShapes scc objects).1 =
      objects.flatMap fun o => o.shapes.map fun s => processShape (scc o) s := by
  induction objects with
  | nil => rfl
  | cons o rest ih => simp [collectShapes, ih]

lemma collectShapes_snd (scc : ShapeConfigCB) (objects : List Geometry) :
    (collectShapes scc objects).2 =
      objects.flatMap fun o =>
        Event.shapesCall o :: o.shapes.map fun _ => Event.configCall o := by
  induction objects with
  | nil => rfl
  | cons o rest ih => simp [collectShapes, ih]

lemma filter_map_const_config (o : Geometry) (l : List Shape) :
    (l.map fun _ => Event.configCall o).filter Event.isConfig =
      l.map fun _ => Event.configCall o := by
  induction l with
  | nil => rfl
  | cons a t ih => simp [Event.isConfig, ih]

lemma collect_filter_config (scc : ShapeConfigCB) (objects : List Geometry) :
    (collectShapes scc objects).2.filter Event.isConfig =
      objects.flatMap fun o => o.shapes.map fun _ => Event.configCall o := by
  induction objects with
  | nil => rfl
  | cons o rest ih =>
    simp [collectShapes, List.filter_append, ih, Event.isConfig,
      filter_map_const_config]

lemma filter_map_const_not_shapesQuery (o : Geometry) (l : List Shape) :
    (l.map fun _ => Event.configCall o).filter Event.isShapesQuery = [] := by
  induction l with
  | nil => rfl
  | cons a t ih => simp [Event.isShapesQuery, ih]

lemma collect_filter_shapesQuery (scc : ShapeConfigCB) (objects : List Geometry) :
    (collectShapes scc objects).2.filter Event.isShapesQuery =
      objects.map Event.shapesCall := by
  induction objects with
  | nil => rfl
  | cons o rest ih =>
    simp [collectShapes, List.filter_append, ih, Event.isShapesQuery,
      filter_map_const_not_shapesQuery]

lemma filter_map_const_not_layer (o : Geometry) (l : List Shape) :
    (l.map fun _ => Event.configCall o).filter Event.isLayer = [] := by
  induction l with
  | nil => rfl
  | cons a t ih => simp [Event.isLayer, ih]

lemma collect_filter_layer (scc : ShapeConfigCB) (objects : List Geometry) :
    (collectShapes scc objects).2.filter Event.isLayer = [] := by
  induction objects with
  | nil => rfl
  | cons o rest ih =>
    simp [collectShapes, List.filter_append, ih, Event.isLayer,
      filter_map_const_not_layer]

lemma filter_map_const_not_completion (o : Geometry) (l : List Shape) :
    (l.map fun _ => Event.configCall o).filter Event.isCompletion = [] := by
  induction l with
  | nil => rfl
  | cons a t ih => simp [Event.isCompletion, ih]

lemma collect_filter_completion (scc : ShapeConfigCB) (objects : List Geometry) :
    (collectShapes scc objects).2.filter Event.isCompletion = [] := by
  induction objects with
  | nil => rfl
  | cons o rest ih =>
    simp [collectShapes, List.filter_append, ih, Event.isCompletion,
      filter_map_const_not_completion]

lemma getLast?_append_two {α : Type} (xs : List α) (a b : α) :
    (xs ++ [a, b]).getLast? = some b := by
  induction xs with
  | nil => rfl
  | cons x t ih =>
    cases t with
    | nil => rfl
    | cons y u => simpa using ih

lemma dropLast_append_two {α : Type} (xs : List α) (a b : α) :
    (xs ++ [a, b]).dropLast = xs ++ [a] := by
  induction xs with
  | nil => rfl
  | cons x t ih =>
    cases t with
    | nil => rfl
    | cons y u => simpa using ih

lemma processShape_payload (c : Option Configuration) (s : Shape) :
    (processShape c s).payload = s.payload := by
  cases c <;> rfl

lemma processShape_others (c : Option Configuration) (s : Shape) :
    (processShape c s).others = s.others := by
  cases c <;> rfl

lemma map_mk_map_payload (l : List ShapePrim) :
    (l.map fun p => ({ payload := p } : Shape)).map Shape.payload = l := by
  induction l with
  | nil => rfl
  | cons a t ih => simp [ih]

lemma shapes_map_payload (g : Geometry) :
    g.shapes.map Shape.payload = materialize g :=
  map_mk_map_payload (materialize g)

lemma assignIfTruthy_none (cur : JSValue) : assignIfTruthy none cur = cur := rfl

lemma assignIfTruthy_cases (f : Option JSValue) (cur : JSValue) :
    assignIfTruthy f cur = cur ∨ ∃ v, f = some v ∧ assignIfTruthy f cur = v := by
  cases f with
  | none => exact Or.inl rfl
  | some v =>
    by_cases h : v.truthy
    · exact Or.inr ⟨v, rfl, by simp [assignIfTruthy, propGet, h]⟩
    · exact Or.inl (by simp [assignIfTruthy, propGet, h])

lemma assignIfTruthy_falsy (v : JSValue) (cur : JSValue) (h : v.truthy = false) :
    assignIfTruthy (some v) cur = cur := by
  simp [assignIfTruthy, propGet, h]

lemma loadText_ok_events (pcc : Option Unit) (scc : ShapeConfigCB) (text : String)
    (objects : List Geometry) (h : parse text = Except.ok objects) :
    (loadText pcc (some scc) text).2 =
      (collectShapes scc objects).2 ++
        [Event.layerAdd (collectShapes scc objects).1,
         Event.completionCall (collectShapes scc objects).1] := by
  simp [loadText, h, runLoad]

lemma getLast?_append_one {α : Type} (xs : List α) (a : α) :
    (xs ++ [a]).getLast? = some a := by
  induction xs with
  | nil => rfl
  | cons x t ih =>
    cases t with
    | nil => rfl
    | cons y u => simpa using ih

lemma map_payload_processed (c : Option Configuration) (l : List Shape) :
    (l.map fun s => processShape c s).map Shape.payload = l.map Shape.payload := by
  induction l with
  | nil => rfl
  | cons a t ih => simp [ih, processShape_payload]

lemma map_payload_processed_comp (c : Option Configuration) (l : List Shape) :
    l.map (Shape.payload ∘ fun s => processShape c s) = l.map Shape.payload := by
  induction l with
  | nil => rfl
  | cons a t ih => simp [ih, processShape_payload, Function.comp]

lemma collect_fst_map_payload (scc : ShapeConfigCB) (objects : List Geometry) :
    (collectShapes scc objects).1.map Shape.payload = objects.flatMap materialize := by
  induction objects with
  | nil => rfl
  | cons o rest ih =>
    simp [collectShapes, List.map_append, ih, List.map_map,
      map_payload_processed_comp, shapes_map_payload]

/-- C1 (counterexample): the configuration callback is not invoked once per
parsed geometry root.  `MULTIPOINT (1 2, 3 4)` parses to a single root that
materializes into two shapes, and `load` invokes the callback twice for it;
`POINT EMPTY` parses to a single root with zero shapes, and `load` never
invokes the callback for it. -/
theorem c1_config_once_per_root_counterexample :
    parse "MULTIPOINT (1 2, 3 4)" =
      Except.ok [Geometry.multiPoint Dim.xy [some ["1", "2"], some ["3", "4"]]] ∧
    ¬ (((loadText none none "MULTIPOINT (1 2, 3 4)").2.filter Event.isConfig).length
        = ([Geometry.multiPoint Dim.xy [some ["1", "2"], some ["3", "4"]]]
            : List Geometry).length) ∧
    parse "POINT EMPTY" = Except.ok [Geometry.point Dim.xy none] ∧
    ¬ (((loadText none none "POINT EMPTY").2.filter Event.isConfig).length
        = ([Geometry.point Dim.xy none] : List Geometry).length) :=
  ⟨rfl, by decide, rfl, by decide⟩

/-- C1 (amended): for every input text whose parse succeeds and every
configuration callback, `load` invokes the callback exactly once per
materialized shape, each invocation receiving that shape's geometry root as
its argument; a root that materializes into several shapes triggers one
invocation per shape, and a root with zero shapes triggers none. -/
theorem c1_config_invoked_once_per_shape (pcc : Option Unit) (scc : ShapeConfigCB)
    (text : String) (objects : List Geometry)
    (h : parse text = Except.ok objects) :
    (loadText pcc (some scc) text).2.filter Event.isConfig =
      objects.flatMap fun o => o.shapes.map fun _ => Event.configCall o := by
  rw [loadText_ok_events pcc scc text objects h, List.filter_append,
    collect_filter_config]
  simp [Event.isConfig]

theorem c1_config_invoked_once_per_shape_witness :
    (loadText none (some noopConfigCB) "MULTIPOINT (1 2, 3 4)").2.filter Event.isConfig =
      ([Geometry.multiPoint Dim.xy [some ["1", "2"], some ["3", "4"]]]
        : List Geometry).flatMap
        (fun o => o.shapes.map fun _ => Event.configCall o) :=
  c1_config_invoked_once_per_shape none noopConfigCB "MULTIPOINT (1 2, 3 4)"
    [Geometry.multiPoint Dim.xy [some ["1", "2"], some ["3", "4"]]] rfl

/-- C2: for every invocation of `load` that completes without error, the
completion callback is invoked exactly once, as the very last action, after
the layer add (the second-to-last action), and it receives the full ordered
list of collected shapes. -/
theorem c2_completion_called_once_after_layer_add (pcc : Option Unit)
    (scc : ShapeConfigCB) (text : String) (objects : List Geometry)
    (h : parse text = Except.ok objects) :
    (loadText pcc (some scc) text).2.filter Event.isCompletion =
      [Event.completionCall (collectShapes scc objects).1] ∧
    (loadText pcc (some scc) text).2.getLast? =
      some (Event.completionCall (collectShapes scc objects).1) ∧
    (loadText pcc (some scc) text).2.dropLast.getLast? =
      some (Event.layerAdd (collectShapes scc objects).1) ∧
    (collectShapes scc objects).1 =
      objects.flatMap fun o => o.shapes.map fun s => processShape (scc o) s := by
  have he := loadText_ok_events pcc scc text objects h
  refine ⟨?_, ?_, ?_, collectShapes_fst scc objects⟩
  · rw [he, List.filter_append, collect_filter_completion]
    rfl
  · rw [he, getLast?_append_two]
  · rw [he, dropLast_append_two, getLast?_append_one]

theorem c2_completion_called_once_after_layer_add_witness :
    (loadText none (some noopConfigCB) "POINT (19 23)").2.filter Event.isCompletion =
      [Event.completionCall
        (collectShapes noopConfigCB [Geometry.point Dim.xy (some ["19", "23"])]).1] :=
  (c2_completion_called_once_after_layer_add none noopConfigCB "POINT (19 23)"
    [Geometry.point Dim.xy (some ["19", "23"])] rfl).1

/-- C3: for every shape and configuration record returned by the callback,
`load` assigns only the recognized fields — any value ending up in a
recognized field is the shape's prior value or comes from the record —
every recognized field absent from the record keeps its prior value, every
other field of the shape (the materialized payload and the bag of other
dynamic properties) keeps its prior value, and a falsy configuration return
leaves the shape entirely unchanged. -/
theorem c3_config_assignment_frame (c : Configuration) (s : Shape) :
    processShape none s = s ∧
    (processShape (some c) s).payload = s.payload ∧
    (processShape (some c) s).others = s.others ∧
    (c.attributes = none →
      (processShape (some c) s).attributes = s.attributes) ∧
    (c.highlightAttributes = none →
      (processShape (some c) s).highlightAttributes = s.highlightAttributes) ∧
    (c.pickDelegate = none →
      (processShape (some c) s).pickDelegate = s.pickDelegate) ∧
    (c.userProperties = none →
      (processShape (some c) s).userProperties = s.userProperties) ∧
    ((processShape (some c) s).attributes = s.attributes ∨
      ∃ v, c.attributes = some v ∧ (processShape (some c) s).attributes = v) ∧
    ((processShape (some c) s).highlightAttributes = s.highlightAttributes ∨
      ∃ v, c.highlightAttributes = some v ∧
        (processShape (some c) s).highlightAttributes = v) ∧
    ((processShape (some c) s).pickDelegate = s.pickDelegate ∨
      ∃ v, c.pickDelegate = some v ∧ (processShape (some c) s).pickDelegate = v) ∧
    ((processShape (some c) s).userProperties = s.userProperties ∨
      ∃ v, c.userProperties = some v ∧
        (processShape (some c) s).userProperties = v) := by
  refine ⟨rfl, rfl, rfl, ?_, ?_, ?_, ?_, ?_, ?_, ?_, ?_⟩
  · intro h
    simp [processShape, h, assignIfTruthy_none]
  · intro h
    simp [processShape, h, assignIfTruthy_none]
  · intro h
    simp [processShape, h, assignIfTruthy_none]
  · intro h
    simp [processShape, h, assignIfTruthy_none]
  · simpa [processShape] using assignIfTruthy_cases c.attributes s.attributes
  · simpa [processShape] using
      assignIfTruthy_cases c.highlightAttributes s.highlightAttributes
  · simpa [processShape] using assignIfTruthy_cases c.pickDelegate s.pickDelegate
  · simpa [processShape] using
      assignIfTruthy_cases c.userProperties s.userProperties

theorem c3_config_assignment_frame_witness :
    (processShape
        (some { highlightAttributes := some (JSValue.obj 7) })
        { payload := ShapePrim.marker Dim.xy ["1", "2"] }).attributes =
      ({ payload := ShapePrim.marker Dim.xy ["1", "2"] } : Shape).attributes :=
  (c3_config_assignment_frame { highlightAttributes := some (JSValue.obj 7) }
    { payload := ShapePrim.marker Dim.xy ["1", "2"] }).2.2.2.1 rfl

/-- C4: for every input text that parses successfully, the shape list handed
to the layer and to the completion callback is the in-order concatenation,
over the parsed roots, of each root's materialized shapes: the collected
list is the flat concatenation of the per-root shape lists (each shape
possibly with configuration fields overwritten but its materialized payload
intact), so root order and per-root shape order are preserved and nothing
is dropped, reordered or deduplicated. -/
theorem c4_shape_list_is_ordered_concatenation (pcc : Option Unit)
    (scc : ShapeConfigCB) (text : String) (objects : List Geometry)
    (h : parse text = Except.ok objects) :
    (collectShapes scc objects).1 =
      objects.flatMap (fun o => o.shapes.map fun s => processShape (scc o) s) ∧
    (collectShapes scc objects).1.map Shape.payload =
      objects.flatMap materialize ∧
    (loadText pcc (some scc) text).2.filter Event.isLayer =
      [Event.layerAdd (collectShapes scc objects).1] ∧
    (loadText pcc (some scc) text).2.filter Event.isCompletion =
      [Event.completionCall (collectShapes scc objects).1] := by
  have he := loadText_ok_events pcc scc text objects h
  refine ⟨collectShapes_fst scc objects, collect_fst_map_payload scc objects, ?_, ?_⟩
  · rw [he, List.filter_append, collect_filter_layer]
    rfl
  · rw [he, List.filter_append, collect_filter_completion]
    rfl

theorem c4_shape_list_is_ordered_concatenation_witness :
    (collectShapes noopConfigCB
        [Geometry.geometryCollection Dim.xy
          [Geometry.point Dim.xy (some ["1", "2"]),
           Geometry.lineString Dim.xy [["0", "0"], ["1", "1"]]]]).1.map Shape.payload =
      ([Geometry.geometryCollection Dim.xy
          [Geometry.point Dim.xy (some ["1", "2"]),
           Geometry.lineString Dim.xy [["0", "0"], ["1", "1"]]]]
        : List Geometry).flatMap materialize :=
  (c4_shape_list_is_ordered_concatenation none noopConfigCB
    "GEOMETRYCOLLECTION (POINT (1 2), LINESTRING (0 0, 1 1))"
    [Geometry.geometryCollection Dim.xy
      [Geometry.point Dim.xy (some ["1", "2"]),
       Geometry.lineString Dim.xy [["0", "0"], ["1", "1"]]]] rfl).2.1

/-- C5: when parsing fails, `load` propagates the parse error to its caller
and performs nothing else: the event trace is empty, so no shape is added
to the layer and neither the configuration callback nor the completion
callback is ever invoked — all-or-nothing with no partial results. -/
theorem c5_parse_error_all_or_nothing (pccOpt : Option Unit)
    (sccOpt : Option ShapeConfigCB) (text : String) (e : WktError)
    (h : parse text = Except.error e) :
    loadText pccOpt sccOpt text = (Except.error e, []) := by
  simp [loadText, h]

theorem c5_parse_error_all_or_nothing_witness :
    loadText none none "POINT (1 2" =
      (Except.error (WktError.synErr ")" "end of input" 0), []) :=
  c5_parse_error_all_or_nothing none none "POINT (1 2"
    (WktError.synErr ")" "end of input" 0) rfl

/-- C6: for every input text that parses successfully, `load` returns the
ordered sequence of parsed geometry roots (not the shape list), and it
queries each root's shape-materialization operation `shapes()` exactly
once, in root order. -/
theorem c6_load_returns_roots_and_queries_shapes_once (pcc : Option Unit)
    (scc : ShapeConfigCB) (text : String) (objects : List Geometry)
    (h : parse text = Except.ok objects) :
    (loadText pcc (some scc) text).1 = Except.ok objects ∧
    (loadText pcc (some scc) text).2.filter Event.isShapesQuery =
      objects.map Event.shapesCall := by
  constructor
  · simp [loadText, h, runLoad]
  · rw [loadText_ok_events pcc scc text objects h, List.filter_append,
      collect_filter_shapesQuery]
    simp [Event.isShapesQuery]

theorem c6_load_returns_roots_and_queries_shapes_once_witness :
    (loadText none (some noopConfigCB) "POINT (19 23) POINT (5 6)").1 =
      Except.ok [Geometry.point Dim.xy (some ["19", "23"]),
        Geometry.point Dim.xy (some ["5", "6"])] :=
  (c6_load_returns_roots_and_queries_shapes_once none noopConfigCB
    "POINT (19 23) POINT (5 6)"
    [Geometry.point Dim.xy (some ["19", "23"]),
     Geometry.point Dim.xy (some ["5", "6"])] rfl).1

/-- C7: the pipeline is deterministic and stateless: parsing the same text
twice yields structurally equal geometry trees, two invocations of `load`
on equally constructed parser instances with the same callbacks produce
equal results (in particular equal shape lists and traces), and `load`
leaves the parser instance unchanged, so nothing is shared between
invocations. -/
theorem c7_load_deterministic_and_stateless (text : String) (pccOpt : Option Unit)
    (sccOpt : Option ShapeConfigCB) :
    parse text = parse text ∧
    WktParser.load (WktParser.make text) pccOpt sccOpt =
      WktParser.load (WktParser.make text) pccOpt sccOpt ∧
    (WktParser.load (WktParser.make text) pccOpt sccOpt).2 = WktParser.make text :=
  ⟨rfl, rfl, rfl⟩

/-- C8: calling `load` with null/undefined callbacks raises nothing and
behaves exactly as with explicit no-op callbacks: lines 70-71 of
WktParser.js substitute `function(){}` for each missing callback, so the
result and the whole event trace coincide. -/
theorem c8_missing_callbacks_defaulted (text : String) :
    loadText none none text = loadText (some ()) (some noopConfigCB) text := by
  cases h : parse text <;> simp [loadText, h]

/-- C9: a recognized configuration field that is present but falsy (null,
undefined, false, 0, empty string) is treated exactly as if it were
omitted: the processed shape is identical to the one produced with the
field absent, and the shape's corresponding field keeps its prior value;
only truthy values are assigned. -/
theorem c9_falsy_config_fields_ignored (c : Configuration) (s : Shape)
    (v : JSValue) (h : v.truthy = false) :
    processShape (some { c with attributes := some v }) s =
      processShape (some { c with attributes := none }) s ∧
    (processShape (some { c with attributes := some v }) s).attributes =
      s.attributes ∧
    processShape (some { c with highlightAttributes := some v }) s =
      processShape (some { c with highlightAttributes := none }) s ∧
    (processShape (some { c with highlightAttributes := some v }) s).highlightAttributes =
      s.highlightAttributes ∧
    processShape (some { c with pickDelegate := some v }) s =
      processShape (some { c with pickDelegate := none }) s ∧
    (processShape (some { c with pickDelegate := some v }) s).pickDelegate =
      s.pickDelegate ∧
    processShape (some { c with userProperties := some v }) s =
      processShape (some { c with userProperties := none }) s ∧
    (processShape (some { c with userProperties := some v }) s).userProperties =
      s.userProperties := by
  refine ⟨?_, ?_, ?_, ?_, ?_, ?_, ?_, ?_⟩ <;>
    simp [processShape, assignIfTruthy_falsy _ _ h, assignIfTruthy_none]

theorem c9_falsy_config_fields_ignored_witness :
    processShape (some { attributes := some (JSValue.num 0) })
        { payload := ShapePrim.marker Dim.xy ["0", "0"] } =
      processShape (some { attributes := none })
        { payload := ShapePrim.marker Dim.xy ["0", "0"] } :=
  (c9_falsy_config_fields_ignored {} { payload := ShapePrim.marker Dim.xy ["0", "0"] }
    (JSValue.num 0) (by decide)).1

/-- C10: for every invocation of `load` that completes without error,
`layer.addRenderables` is called exactly once, receiving the same shape
list that the completion callback receives, and with zero parsed geometries
the whole trace is exactly one layer add of the empty list followed by one
completion invocation with that empty list. -/
theorem c10_layer_add_once_with_completion_list (pcc : Option Unit)
    (scc : ShapeConfigCB) (text : String) (objects : List Geometry)
    (h : parse text = Except.ok objects) :
    (loadText pcc (some scc) text).2.filter Event.isLayer =
      [Event.layerAdd (collectShapes scc objects).1] ∧
    (loadText pcc (some scc) text).2.filter Event.isCompletion =
      [Event.completionCall (collectShapes scc objects).1] ∧
    (objects = [] →
      (loadText pcc (some scc) text).2 =
        [Event.layerAdd [], Event.completionCall []]) := by
  have he := loadText_ok_events pcc scc text objects h
  refine ⟨?_, ?_, ?_⟩
  · rw [he, List.filter_append, collect_filter_layer]
    rfl
  · rw [he, List.filter_append, collect_filter_completion]
    rfl
  · intro hnil
    subst hnil
    rw [he]
    rfl

theorem c10_layer_add_once_with_completion_list_witness :
    (loadText none (some noopConfigCB) "").2 =
      [Event.layerAdd [], Event.completionCall []] :=
  (c10_layer_add_once_with_completion_list none noopConfigCB "" [] rfl).2.2 rfl
